import Mathlib

/-!
Verification of the growth/nutrition analytics core of the Pediatric-Agent
backend (`Backend/app/api/v1/routes/growth.py` and
`Backend/app/api/v1/routes/nutrition.py`).

Modelling conventions:
* Python floats are embedded as rationals (`ℚ`); Python ints as `ℤ`/`ℕ`.
* A nullable column (`Optional[float]`) becomes `Option ℚ`.
* A `datetime` is only ever consumed through its `strftime("%Y-%m-%d")`
  rendering (grouping key) or through the database `ORDER BY`; we therefore
  represent `meal_date` by its formatted `"YYYY-MM-DD"` string and take the
  growth-log list to be already ordered by `measurement_date` ascending, as
  the route's query guarantees.
* A Python dict used as a record with fixed keys becomes a structure; an
  empty dict in a response field becomes `none` of an `Option` structure; a
  dict used as a counter (`meals_by_type`) becomes the multiset it counts.
-/

/-- Python's `round(x, 1)`: round to one decimal place. -/
def round1 (q : ℚ) : ℚ := (round (q * 10) : ℤ) / 10

/-! ## Growth routes (`growth.py`) -/

/-- Models `measurements[-3:] if len(measurements) >= 3 else measurements`
(from `calculate_trend`, growth.py line 43). -/
def recentOf (measurements : List ℚ) : List ℚ :=
  if 3 ≤ measurements.length then measurements.drop (measurements.length - 3)
  else measurements

/-- Sum of consecutive differences
`sum(r[i+1] - r[i] for i in range(len(r)-1))` (growth.py line 47). -/
def consecDiffSum (r : List ℚ) : ℚ :=
  ((r.zip r.tail).map (fun p => p.2 - p.1)).sum

/-- The classification part of `calculate_trend` (growth.py lines 47-55):
average change over the window against the ±0.5 thresholds. -/
def trendClassify (recent : List ℚ) : String :=
  let avg_change := consecDiffSum recent / ((recent.length - 1 : ℕ) : ℚ)
  if avg_change > 1/2 then "increasing"
  else if avg_change < -(1/2) then "decreasing"
  else "stable"

/-- Models `calculate_trend` (growth.py lines 37-55). -/
def calculate_trend (measurements : List ℚ) : String :=
  if measurements.length < 2 then "insufficient_data"
  else
    let recent_measurements := recentOf measurements
    if recent_measurements.length < 2 then "stable"
    else trendClassify recent_measurements

/-- The three metric keys of the percentile lookup table. -/
inductive MeasurementType where
  | height
  | weight
  | head_circumference
deriving DecidableEq

/-- The hardcoded WHO-style lookup table of `calculate_percentile`
(growth.py lines 63-79): reference age in months paired with (mean, std). -/
def percentileEntries (t : MeasurementType) : List (ℤ × ℚ × ℚ) :=
  match t with
  | .height => [(12, 75, 3), (24, 86, 7/2), (36, 95, 4)]
  | .weight => [(12, 19/2, 1), (24, 12, 6/5), (36, 14, 3/2)]
  | .head_circumference => [(12, 93/2, 3/2), (24, 48, 3/2), (36, 49, 3/2)]

/-- Models `min(keys, key=lambda x: abs(x - age_months))` (growth.py line 82):
Python's `min` keeps the earliest element among those of minimal key, and
dict key iteration order is insertion order, i.e. ascending 12, 24, 36. -/
def closestAge (age_months : ℤ) (keys : List ℤ) : ℤ :=
  match keys with
  | [] => 0
  | k :: ks => ks.foldl (fun best a => if |a - age_months| < |best - age_months| then a else best) k

/-- Models `calculate_percentile` (growth.py lines 57-90). -/
def calculate_percentile (measurement : ℚ) (measurement_type : MeasurementType) (age_months : ℤ) : ℚ :=
  let entries := percentileEntries measurement_type
  let closest_age := closestAge age_months (entries.map (fun e => e.1))
  let stats := (entries.lookup closest_age).getD (0, 1)
  let z_score := (measurement - stats.1) / stats.2
  let percentile := max 0 (min 100 (50 + z_score * (3413/100)))
  round1 percentile

/-- One row of `growth_logs` as consumed by the analysis: the three nullable
metric columns. The list position stands for the `measurement_date` order
(the route queries `ORDER BY measurement_date` ascending). -/
structure GrowthLog where
  height_cm : Option ℚ
  weight_kg : Option ℚ
  head_circumference_cm : Option ℚ
deriving DecidableEq

/-- The `GrowthStats` response schema (schemas/growth/growth.py). -/
structure GrowthStats where
  total_measurements : ℕ
  latest_height_cm : Option ℚ
  latest_weight_kg : Option ℚ
  latest_head_circumference_cm : Option ℚ
  height_trend : String
  weight_trend : String
  head_circumference_trend : String
  height_percentile : Option ℚ
  weight_percentile : Option ℚ
  head_circumference_percentile : Option ℚ
deriving DecidableEq

/-- Models `latest is not None and age <= 36` guarded percentile
(growth.py lines 194-201). -/
def percentileIfYoung (latest : Option ℚ) (t : MeasurementType) (age : ℤ) : Option ℚ :=
  match latest with
  | some v => if age ≤ 36 then some (calculate_percentile v t age) else none
  | none => none

/-- The pure core of `get_growth_analysis` (growth.py lines 160-214), taking
the child's growth logs ordered by date ascending and the child's age in
months (`int(child.age or 12)`). -/
def get_growth_analysis (growth_logs : List GrowthLog) (child_age_months : ℤ) : GrowthStats :=
  match growth_logs.getLast? with
  | none =>
    { total_measurements := 0
      latest_height_cm := none
      latest_weight_kg := none
      latest_head_circumference_cm := none
      height_trend := "no_data"
      weight_trend := "no_data"
      head_circumference_trend := "no_data"
      height_percentile := none
      weight_percentile := none
      head_circumference_percentile := none }
  | some latest_log =>
    let heights := growth_logs.filterMap (fun l => l.height_cm)
    let weights := growth_logs.filterMap (fun l => l.weight_kg)
    let head_circumferences := growth_logs.filterMap (fun l => l.head_circumference_cm)
    { total_measurements := growth_logs.length
      latest_height_cm := latest_log.height_cm
      latest_weight_kg := latest_log.weight_kg
      latest_head_circumference_cm := latest_log.head_circumference_cm
      height_trend := if heights = [] then "no_data" else calculate_trend heights
      weight_trend := if weights = [] then "no_data" else calculate_trend weights
      head_circumference_trend :=
        if head_circumferences = [] then "no_data" else calculate_trend head_circumferences
      height_percentile := percentileIfYoung latest_log.height_cm .height child_age_months
      weight_percentile := percentileIfYoung latest_log.weight_kg .weight child_age_months
      head_circumference_percentile :=
        percentileIfYoung latest_log.head_circumference_cm .head_circumference child_age_months }

/-- Spec-side notion: the latest non-null value of one metric, by date
(position in the date-ascending log list). -/
def latestNonNull (logs : List GrowthLog) (f : GrowthLog → Option ℚ) : Option ℚ :=
  (logs.filterMap f).getLast?

/-! ## Nutrition routes (`nutrition.py`) -/

/-- One row of `nutrition_logs` as consumed by the aggregation.
`meal_date` is the `strftime("%Y-%m-%d")` rendering of the timestamp (the
only way the aggregation consumes it).  `food_items` is the outcome of
`json.loads` plus per-item `item['name']` access: `none` when `json.loads`
itself raises (unparseable payload), otherwise the list of items where each
item's `'name'` entry is `none` when that item has no such key. -/
structure NutritionLog where
  meal_date : String
  meal_type : String
  food_items : Option (List (Option String))
  calories : Option ℚ
  protein_g : Option ℚ
  carbs_g : Option ℚ
  fat_g : Option ℚ
  fiber_g : Option ℚ
  sodium_mg : Option ℚ
deriving DecidableEq

/-- The `DailyNutrition` response schema (schemas/growth/nutrition.py).
`meals_by_type` is a Python dict counting meal types; two such dicts are
equal exactly when they count the same multiset of meal types, so the field
is embedded as that multiset. -/
structure DailyNutrition where
  date : String
  total_calories : ℚ
  total_protein_g : ℚ
  total_carbs_g : ℚ
  total_fat_g : ℚ
  total_fiber_g : ℚ
  total_sodium_mg : ℚ
  meal_count : ℕ
  meals_by_type : Multiset String
deriving DecidableEq

/-- The distinct `YYYY-MM-DD` keys of `daily_data` in first-occurrence
order (`defaultdict` key insertion order, nutrition.py lines 54-56). -/
def dateKeys (nutrition_logs : List NutritionLog) : List String :=
  nutrition_logs.foldl (fun acc l => if l.meal_date ∈ acc then acc else acc ++ [l.meal_date]) []

/-- The group of logs sharing one date key. -/
def logsOn (nutrition_logs : List NutritionLog) (d : String) : List NutritionLog :=
  nutrition_logs.filter (fun l => l.meal_date = d)

/-- Models `sum(float(f(log) or 0) for log in logs)`: sum one nullable field over a
log list with null read as 0 (nutrition.py lines 58-63 accumulate exactly
these addends into `daily_data`). -/
def sumBy (nutrition_logs : List NutritionLog) (f : NutritionLog → Option ℚ) : ℚ :=
  (nutrition_logs.map (fun l => (f l).getD 0)).sum

/-- The `DailyNutrition` record built for one date key
(nutrition.py lines 54-79): per-field sums of that date's group with null
as 0, rounded to 1 decimal; the group size; the meal-type counter. -/
def dailySummaryOn (nutrition_logs : List NutritionLog) (d : String) : DailyNutrition :=
  let group := logsOn nutrition_logs d
  { date := d
    total_calories := round1 (sumBy group (fun l => l.calories))
    total_protein_g := round1 (sumBy group (fun l => l.protein_g))
    total_carbs_g := round1 (sumBy group (fun l => l.carbs_g))
    total_fat_g := round1 (sumBy group (fun l => l.fat_g))
    total_fiber_g := round1 (sumBy group (fun l => l.fiber_g))
    total_sodium_mg := round1 (sumBy group (fun l => l.sodium_mg))
    meal_count := group.length
    meals_by_type := (group.map (fun l => l.meal_type) : List String) }

/-- Models `calculate_daily_nutrition` (nutrition.py lines 41-81): one summary per
distinct date, emitted in `sorted(daily_data.items())` order, i.e. ascending
date-string order. -/
def calculate_daily_nutrition (nutrition_logs : List NutritionLog) : List DailyNutrition :=
  (List.insertionSort (· ≤ ·) (dateKeys nutrition_logs)).map (dailySummaryOn nutrition_logs)

/-- Names contributed by one parsed food-items payload: `for item in
food_items: all_foods.append(item['name'])` inside `try` (nutrition.py
lines 280-286) appends names until the first item without a `'name'` key
raises, keeping the names appended before the failure. -/
def namesUntilFailure : List (Option String) → List String
  | [] => []
  | some n :: rest => n :: namesUntilFailure rest
  | none :: _ => []

/-- Names contributed by one log: nothing when `json.loads` raises,
otherwise the prefix of names before the first malformed item. -/
def foodNames (fi : Option (List (Option String))) : List String :=
  match fi with
  | none => []
  | some items => namesUntilFailure items

/-- Models `all_foods` (nutrition.py lines 279-286): every contributed name, in
log order. -/
def allFoods (nutrition_logs : List NutritionLog) : List String :=
  (nutrition_logs.map (fun l => foodNames l.food_items)).flatten

/-- Distinct elements in first-occurrence order: the key order of
`Counter(all_foods)` (a dict keeps first-insertion key order). -/
def firstDedup (l : List String) : List String :=
  l.foldl (fun acc x => if x ∈ acc then acc else acc ++ [x]) []

/-- Models `Counter(all_foods).items()`: each distinct name, in first-occurrence
order, with its occurrence count. -/
def counterItems (nutrition_logs : List NutritionLog) : List (String × ℕ) :=
  (firstDedup (allFoods nutrition_logs)).map
    (fun n => (n, (allFoods nutrition_logs).count n))

/-- Insert into a count-descending list, after every element of count ≥ the
new element's count.  Folding this over a list is a stable descending sort
by count, the documented behaviour of `Counter.most_common`. -/
def insertDesc (x : String × ℕ) : List (String × ℕ) → List (String × ℕ)
  | [] => [x]
  | y :: ys => if y.2 < x.2 then x :: y :: ys else y :: insertDesc x ys

/-- Stable descending sort by count (model of the sort underlying
`Counter.most_common`). -/
def sortByCountDesc (items : List (String × ℕ)) : List (String × ℕ) :=
  items.foldl (fun acc x => insertDesc x acc) []

/-- Models `[food for food, count in Counter(all_foods).most_common(5)]`
(nutrition.py lines 288-289). -/
def mostCommonFoods (nutrition_logs : List NutritionLog) : List String :=
  ((sortByCountDesc (counterItems nutrition_logs)).take 5).map (fun p => p.1)

/-- The `daily_averages` dict (fixed six keys, nutrition.py lines 269-276). -/
structure DailyAverages where
  calories : ℚ
  protein_g : ℚ
  carbs_g : ℚ
  fat_g : ℚ
  fiber_g : ℚ
  sodium_mg : ℚ
deriving DecidableEq

/-- The `nutrition_goals_status` dict (fixed four keys, nutrition.py
lines 296-301). -/
structure GoalsStatus where
  calories : String
  protein : String
  fiber : String
  sodium : String
deriving DecidableEq

/-- The `NutritionSummary` response schema (schemas/growth/nutrition.py).
`daily_averages` and `nutrition_goals_status` are dicts that are either
empty (`none` here) or carry their fixed keys (`some` of a structure). -/
structure NutritionSummary where
  total_logs : ℕ
  date_range : String
  daily_averages : Option DailyAverages
  recent_daily_summaries : List DailyNutrition
  most_common_foods : List String
  nutrition_goals_status : Option GoalsStatus
  recommendations : List String
deriving DecidableEq

/-- The f-string of the low-calorie rule (nutrition.py line 100). -/
def lowCalMsg (target : ℕ) : String :=
  "Consider increasing daily calories. Target: ~" ++ toString target ++ " calories/day"

/-- The high-calorie message (nutrition.py line 102). -/
def highCalMsg : String := "Daily calorie intake seems high. Consider portion control."

/-- The f-string of the low-protein rule (nutrition.py line 106). -/
def lowProtMsg (target : ℕ) : String :=
  "Increase protein intake. Target: ~" ++ toString target ++ "g protein/day"

/-- The low-fiber message (nutrition.py line 110). -/
def fiberMsg : String := "Include more fruits, vegetables, and whole grains for fiber"

/-- The high-sodium message (nutrition.py line 114). -/
def sodiumMsg : String := "Reduce sodium intake. Limit processed foods."

/-- The fallback message (nutrition.py line 117). -/
def balancedMsg : String := "Nutritional intake looks well-balanced!"

/-- The age-banded calorie target (nutrition.py lines 88-96). -/
def calorieTarget (child_age : ℤ) : ℕ :=
  if child_age ≤ 12 then 800 else if child_age ≤ 24 then 1000 else 1200

/-- The age-banded protein target (nutrition.py lines 88-96). -/
def proteinTarget (child_age : ℤ) : ℕ :=
  if child_age ≤ 12 then 15 else if child_age ≤ 24 then 20 else 25

/-- Models `get_nutrition_recommendations` (nutrition.py lines 83-119). -/
def get_nutrition_recommendations (avg_nutrition : DailyAverages) (child_age : ℤ) : List String :=
  let targets : ℕ × ℕ :=
    if child_age ≤ 12 then (800, 15)
    else if child_age ≤ 24 then (1000, 20)
    else (1200, 25)
  let target_calories := targets.1
  let target_protein := targets.2
  let calorie_recs : List String :=
    if avg_nutrition.calories < (target_calories : ℚ) * (8/10) then
      [lowCalMsg target_calories]
    else if avg_nutrition.calories > (target_calories : ℚ) * (12/10) then [highCalMsg]
    else []
  let protein_recs : List String :=
    if avg_nutrition.protein_g < (target_protein : ℚ) * (8/10) then [lowProtMsg target_protein]
    else []
  let fiber_recs : List String :=
    if avg_nutrition.fiber_g < 10 then [fiberMsg]
    else []
  let sodium_recs : List String :=
    if avg_nutrition.sodium_mg > 1500 then [sodiumMsg]
    else []
  let recommendations := calorie_recs ++ protein_recs ++ fiber_recs ++ sodium_recs
  if recommendations = [] then [balancedMsg]
  else recommendations

/-- The pure core of `get_nutrition_summary` (nutrition.py lines 244-311),
taking the logs already windowed to `[start_date, end_date]` by the query,
the `days` query parameter and the child's age (`int(child.age or 12)`). -/
def get_nutrition_summary (nutrition_logs : List NutritionLog) (days : ℕ) (child_age : ℤ) :
    NutritionSummary :=
  if nutrition_logs.length = 0 then
    { total_logs := 0
      date_range := "Last " ++ toString days ++ " days"
      daily_averages := none
      recent_daily_summaries := []
      most_common_foods := []
      nutrition_goals_status := none
      recommendations := ["No nutrition data available. Start logging meals!"] }
  else
    let daily_summaries := calculate_daily_nutrition nutrition_logs
    let total_days : ℕ := if daily_summaries.length ≠ 0 then daily_summaries.length else 1
    let daily_averages : DailyAverages :=
      { calories := round1 (sumBy nutrition_logs (fun l => l.calories) / (total_days : ℚ))
        protein_g := round1 (sumBy nutrition_logs (fun l => l.protein_g) / (total_days : ℚ))
        carbs_g := round1 (sumBy nutrition_logs (fun l => l.carbs_g) / (total_days : ℚ))
        fat_g := round1 (sumBy nutrition_logs (fun l => l.fat_g) / (total_days : ℚ))
        fiber_g := round1 (sumBy nutrition_logs (fun l => l.fiber_g) / (total_days : ℚ))
        sodium_mg := round1 (sumBy nutrition_logs (fun l => l.sodium_mg) / (total_days : ℚ)) }
    let recommendations := get_nutrition_recommendations daily_averages child_age
    let nutrition_goals_status : GoalsStatus :=
      { calories :=
          if 800 ≤ daily_averages.calories ∧ daily_averages.calories ≤ 1500 then "adequate"
          else "needs_attention"
        protein := if 15 ≤ daily_averages.protein_g then "adequate" else "low"
        fiber := if 10 ≤ daily_averages.fiber_g then "adequate" else "low"
        sodium := if daily_averages.sodium_mg ≤ 1500 then "good" else "high" }
    { total_logs := nutrition_logs.length
      date_range := "Last " ++ toString days ++ " days"
      daily_averages := some daily_averages
      recent_daily_summaries := daily_summaries.drop (daily_summaries.length - 7)
      most_common_foods := mostCommonFoods nutrition_logs
      nutrition_goals_status := some nutrition_goals_status
      recommendations := recommendations }

/-! ## Spec-side formulations used by the claim statements -/

/-- Spec-side trend window: "the last 3 values (or all of them when the
list has exactly 2)". -/
def trendSpecWindow (m : List ℚ) : List ℚ :=
  if m.length = 2 then m else m.drop (m.length - 3)

/-- Spec-side average of consecutive differences over a window. -/
def trendSpecAvg (w : List ℚ) : ℚ :=
  (List.zipWith (fun a b => a - b) w.tail w).sum / ((w.length - 1 : ℕ) : ℚ)

/-- The three reference ages of the percentile table. -/
def refAges : List ℤ := [12, 24, 36]

/-- Spec-side clamp to the interval [0, 100]. -/
def clamp0100 (x : ℚ) : ℚ := if x < 0 then 0 else if 100 < x then 100 else x

/-- Spec-side: the number of distinct `YYYY-MM-DD` dates among the logs. -/
def distinctDateCount (logs : List NutritionLog) : ℕ :=
  ((logs.map (fun l => l.meal_date)).dedup).length

/-- The reference age `calculate_percentile` selects. -/
def chosenRef (t : MeasurementType) (age : ℤ) : ℤ :=
  closestAge age ((percentileEntries t).map (fun e => e.1))

/-- The (mean, std) entry `calculate_percentile` reads. -/
def chosenStats (t : MeasurementType) (age : ℤ) : ℚ × ℚ :=
  ((percentileEntries t).lookup (chosenRef t age)).getD (0, 1)

/-! ## Concrete inputs used by counterexamples and witnesses -/

/-- Two growth records ordered by date: the earlier one has all three
metrics, the later one records only a weight. -/
def c1Logs : List GrowthLog :=
  [{ height_cm := some 75, weight_kg := some 9, head_circumference_cm := some 46 },
   { height_cm := none, weight_kg := some 10, head_circumference_cm := none }]

/-- A log list agreeing with `c1Logs` on the height column only. -/
def c1LogsB : List GrowthLog :=
  [{ height_cm := some 75, weight_kg := none, head_circumference_cm := none },
   { height_cm := none, weight_kg := some 10, head_circumference_cm := some 47 }]

/-- A breakfast log. -/
def c5LogA : NutritionLog :=
  { meal_date := "2024-01-01", meal_type := "breakfast", food_items := some [some "apple"],
    calories := some 300, protein_g := some 10, carbs_g := some 40, fat_g := some 9,
    fiber_g := some 3, sodium_mg := some 200 }

/-- A lunch log on the same day, with a null protein and an unparseable
food payload. -/
def c5LogB : NutritionLog :=
  { meal_date := "2024-01-01", meal_type := "lunch", food_items := none,
    calories := some 500, protein_g := none, carbs_g := some 60, fat_g := some 15,
    fiber_g := some 5, sodium_mg := some 400 }

/-- A log whose food payload parses to two items, the second lacking a
`name` key: `[{"name": "apple"}, {"quantity": "1"}]`. -/
def c8BadLog : NutritionLog :=
  { meal_date := "2024-01-01", meal_type := "snack", food_items := some [some "apple", none],
    calories := none, protein_g := none, carbs_g := none, fat_g := none,
    fiber_g := none, sodium_mg := none }

/-- A daily-averages record used to instantiate the recommendation rules. -/
def c9Avg : DailyAverages :=
  { calories := 900, protein_g := 20, carbs_g := 100, fat_g := 30, fiber_g := 12,
    sodium_mg := 800 }

/-! ## Helper lemmas -/

theorem round1_mono {a b : ℚ} (h : a ≤ b) : round1 a ≤ round1 b := by
  unfold round1
  have h10 : a * 10 + 1/2 ≤ b * 10 + 1/2 := by linarith
  have := Int.floor_mono h10
  rw [round_eq, round_eq]
  have : ((⌊a * 10 + 1/2⌋ : ℤ) : ℚ) ≤ ((⌊b * 10 + 1/2⌋ : ℤ) : ℚ) := by exact_mod_cast this
  linarith

theorem round1_zero : round1 0 = 0 := by
  norm_num [round1]

theorem round1_hundred : round1 100 = 100 := by
  norm_num [round1, round_eq]

theorem abs_round1_sub (q : ℚ) : |round1 q - q| = |(round (q * 10) : ℚ) - q * 10| / 10 := by
  unfold round1
  rw [← abs_of_pos (show (0:ℚ) < 10 by norm_num), ← abs_div]
  congr 1
  field_simp
  ring

theorem abs_round1_sub_le (q : ℚ) : |round1 q - q| ≤ 1/20 := by
  rw [abs_round1_sub]
  have h := abs_sub_round (q * 10)
  rw [abs_sub_comm] at h
  linarith

theorem clamp_eq (x : ℚ) : max 0 (min 100 x) = clamp0100 x := by
  unfold clamp0100
  split_ifs with h h'
  · have : min 100 x = x := min_eq_right (by linarith)
    rw [this]
    exact max_eq_left (by linarith)
  · have : min 100 x = 100 := min_eq_left (by linarith)
    rw [this]
    exact max_eq_right (by norm_num)
  · have : min 100 x = x := min_eq_right (by linarith)
    rw [this]
    exact max_eq_right (by linarith)

theorem clamp0100_nonneg (x : ℚ) : 0 ≤ clamp0100 x := by
  unfold clamp0100
  split_ifs <;> linarith

theorem clamp0100_le (x : ℚ) : clamp0100 x ≤ 100 := by
  unfold clamp0100
  split_ifs <;> linarith

theorem zip_sub_eq_zipWith (l l' : List ℚ) :
    (l.zip l').map (fun p => p.2 - p.1) = List.zipWith (fun a b => a - b) l' l := by
  induction l generalizing l' with
  | nil => cases l' <;> rfl
  | cons a as ih =>
    cases l' with
    | nil => rfl
    | cons b bs => simpa using ih bs

theorem consecDiffSum_eq (r : List ℚ) :
    consecDiffSum r = (List.zipWith (fun a b => a - b) r.tail r).sum := by
  unfold consecDiffSum
  rw [zip_sub_eq_zipWith]

example : calculate_trend [] = "insufficient_data" := by simp [calculate_trend]
example : calculate_trend [5] = "insufficient_data" := by simp [calculate_trend]
example : calculate_trend [10, 10] = "stable" := by
  norm_num [calculate_trend, recentOf, trendClassify, consecDiffSum]
example : calculate_trend [10, 11] = "increasing" := by
  norm_num [calculate_trend, recentOf, trendClassify, consecDiffSum]
example : calculate_trend [10, 9] = "decreasing" := by
  norm_num [calculate_trend, recentOf, trendClassify, consecDiffSum]
example : calculate_trend [0, 0, 0, 10, 11] = "increasing" := by
  norm_num [calculate_trend, recentOf, trendClassify, consecDiffSum]
example : calculate_percentile 75 .height 12 = 50 := by
  norm_num [calculate_percentile, percentileEntries, closestAge, List.lookup, round1, round_eq]

/-! ## Claim C2 and C10: calculate_trend -/

theorem closestAge_spec (age : ℤ) :
    closestAge age refAges ∈ refAges ∧
    (∀ a ∈ refAges, |closestAge age refAges - age| ≤ |a - age|) ∧
    (∀ a ∈ refAges, |a - age| = |closestAge age refAges - age| → closestAge age refAges ≤ a) := by
  unfold closestAge refAges
  simp only [List.foldl]
  split_ifs with h1 h2 h2 <;>
    refine ⟨by decide, ?_, ?_⟩ <;>
    intro a ha <;>
    simp only [List.mem_cons, List.mem_singleton, List.not_mem_nil, or_false] at ha <;>
    rcases ha with rfl | rfl | rfl <;>
    intros <;>
    linarith

/-- C2: `calculate_trend` yields `"insufficient_data"` for every list of
fewer than 2 values; otherwise it keeps the last 3 values (all of them when
the list has exactly 2), averages the consecutive differences over that
window, and classifies that average against the ±0.5 thresholds. -/
theorem trend_contract (m : List ℚ) :
    calculate_trend m =
      if m.length < 2 then "insufficient_data"
      else if trendSpecAvg (trendSpecWindow m) > (0.5 : ℚ) then "increasing"
      else if trendSpecAvg (trendSpecWindow m) < (-0.5 : ℚ) then "decreasing"
      else "stable" := by
  by_cases h : m.length < 2
  · simp [calculate_trend, h]
  · have h2 : 2 ≤ m.length := by omega
    have hwin : recentOf m = trendSpecWindow m := by
      unfold recentOf trendSpecWindow
      rcases Nat.lt_or_ge m.length 3 with h3 | h3
      · have hm2 : m.length = 2 := by omega
        simp [hm2]
      · have hne : m.length ≠ 2 := by omega
        simp [h3, hne]
    have hlen : 2 ≤ (recentOf m).length := by
      unfold recentOf
      split
      · rw [List.length_drop]
        omega
      · exact h2
    simp only [calculate_trend]
    rw [if_neg (by omega), if_neg (by omega), if_neg h, hwin]
    unfold trendClassify trendSpecAvg
    rw [consecDiffSum_eq]
    norm_num

/-- C10: the `"stable"` early return that guards a window of fewer than 2
values is unreachable: every list passing the first guard (length ≥ 2)
truncates to a window of length ≥ 2, so `calculate_trend` is fully
determined by the remaining branches (the classification). -/
theorem trend_stable_guard_unreachable (m : List ℚ) (h : 2 ≤ m.length) :
    2 ≤ (recentOf m).length ∧ calculate_trend m = trendClassify (recentOf m) := by
  have hlen : 2 ≤ (recentOf m).length := by
    unfold recentOf
    split
    · rw [List.length_drop]
      omega
    · exact h
  refine ⟨hlen, ?_⟩
  simp only [calculate_trend]
  rw [if_neg (by omega), if_neg (by omega)]

theorem trend_stable_guard_unreachable_witness :
    2 ≤ ([10, 11] : List ℚ).length ∧
      (2 ≤ (recentOf [10, 11]).length ∧
        calculate_trend [10, 11] = trendClassify (recentOf [10, 11])) :=
  ⟨by norm_num, trend_stable_guard_unreachable [10, 11] (by norm_num)⟩

/-! ## Claim C3: calculate_percentile -/

/-- C3: `calculate_percentile` selects the reference age among 12, 24, 36
months at minimal absolute distance to the given age with ties to the lower
age, computes the z-score against that entry's (mean, std), and returns the
clamp of `50 + z * 34.13` to [0, 100] rounded to one decimal; the result
always lies in [0, 100], and `calculate_percentile 75 height 12 = 50`
exactly. -/
theorem percentile_contract (v : ℚ) (t : MeasurementType) (age : ℤ) :
    chosenRef t age ∈ refAges ∧
    (∀ a ∈ refAges, |chosenRef t age - age| ≤ |a - age|) ∧
    (∀ a ∈ refAges, |a - age| = |chosenRef t age - age| → chosenRef t age ≤ a) ∧
    calculate_percentile v t age =
      round1 (clamp0100 (50 + (v - (chosenStats t age).1) / (chosenStats t age).2 * (3413/100))) ∧
    0 ≤ calculate_percentile v t age ∧
    calculate_percentile v t age ≤ 100 ∧
    calculate_percentile 75 .height 12 = 50 := by
  have hkeys : (percentileEntries t).map (fun e => e.1) = refAges := by
    cases t <;> rfl
  have hc := closestAge_spec age
  have href : chosenRef t age = closestAge age refAges := by
    rw [chosenRef, hkeys]
  have hformula : calculate_percentile v t age =
      round1 (clamp0100 (50 + (v - (chosenStats t age).1) / (chosenStats t age).2 * (3413/100))) := by
    simp only [calculate_percentile, chosenStats, chosenRef, clamp_eq]
  refine ⟨?_, ?_, ?_, hformula, ?_, ?_, ?_⟩
  · rw [href]
    exact hc.1
  · rw [href]
    exact hc.2.1
  · rw [href]
    exact hc.2.2
  · rw [hformula]
    have hm := round1_mono (clamp0100_nonneg
      (50 + (v - (chosenStats t age).1) / (chosenStats t age).2 * (3413/100)))
    rwa [round1_zero] at hm
  · rw [hformula]
    have hm := round1_mono (clamp0100_le
      (50 + (v - (chosenStats t age).1) / (chosenStats t age).2 * (3413/100)))
    rwa [round1_hundred] at hm
  · norm_num [calculate_percentile, percentileEntries, closestAge, List.lookup, round1, round_eq]

theorem percentile_contract_witness :
    chosenRef .height 18 ∈ refAges ∧
    |chosenRef .height 18 - 18| ≤ |(24 : ℤ) - 18| ∧
    (|(12 : ℤ) - 18| = |chosenRef .height 18 - 18| → chosenRef .height 18 ≤ 12) ∧
    0 ≤ calculate_percentile 80 .height 18 ∧
    calculate_percentile 80 .height 18 ≤ 100 := by
  obtain ⟨h1, h2, h3, _, h5, h6, _⟩ := percentile_contract 80 .height 18
  exact ⟨h1, h2 24 (by decide), h3 12 (by decide), h5, h6⟩

/-! ## Claim C1: get_growth_analysis latest values and independence -/

theorem get_growth_analysis_eq (logs : List GrowthLog) (age : ℤ) (h : logs ≠ []) :
    get_growth_analysis logs age =
      { total_measurements := logs.length
        latest_height_cm := (logs.getLast h).height_cm
        latest_weight_kg := (logs.getLast h).weight_kg
        latest_head_circumference_cm := (logs.getLast h).head_circumference_cm
        height_trend :=
          if logs.filterMap (fun l => l.height_cm) = [] then "no_data"
          else calculate_trend (logs.filterMap (fun l => l.height_cm))
        weight_trend :=
          if logs.filterMap (fun l => l.weight_kg) = [] then "no_data"
          else calculate_trend (logs.filterMap (fun l => l.weight_kg))
        head_circumference_trend :=
          if logs.filterMap (fun l => l.head_circumference_cm) = [] then "no_data"
          else calculate_trend (logs.filterMap (fun l => l.head_circumference_cm))
        height_percentile := percentileIfYoung (logs.getLast h).height_cm .height age
        weight_percentile := percentileIfYoung (logs.getLast h).weight_kg .weight age
        head_circumference_percentile :=
          percentileIfYoung (logs.getLast h).head_circumference_cm .head_circumference age } := by
  unfold get_growth_analysis
  rw [List.getLast?_eq_getLast logs h]

theorem filterMap_eq_of_col_eq {f : GrowthLog → Option ℚ} {l l' : List GrowthLog}
    (hm : l'.map f = l.map f) : l'.filterMap f = l.filterMap f := by
  have key : ∀ L : List GrowthLog, L.filterMap f = (L.map f).filterMap id := by
    intro L
    rw [List.filterMap_map, Function.id_comp]
  rw [key, key, hm]

theorem getLast_col_eq {f : GrowthLog → Option ℚ} {l l' : List GrowthLog}
    (h : l ≠ []) (h' : l' ≠ []) (hm : l'.map f = l.map f) :
    f (l'.getLast h') = f (l.getLast h) := by
  have e1 : (l'.map f).getLast? = (l.map f).getLast? := by rw [hm]
  rw [List.getLast?_map, List.getLast?_map, List.getLast?_eq_getLast l h,
    List.getLast?_eq_getLast l' h'] at e1
  simpa using e1

/-- C1 counterexample: with two records where only the earlier one holds a
height, the reported latest height is null and no height percentile is
computed (age 12 ≤ 36), although the latest non-null height by date is 75 —
so neither the reported latest value nor the percentile derives from the
latest non-null value of the metric. -/
theorem growth_analysis_latest_counterexample :
    latestNonNull c1Logs (fun l => l.height_cm) = some 75 ∧
    (get_growth_analysis c1Logs 12).latest_height_cm = none ∧
    (get_growth_analysis c1Logs 12).latest_height_cm ≠
      latestNonNull c1Logs (fun l => l.height_cm) ∧
    (get_growth_analysis c1Logs 12).height_percentile = none ∧
    (get_growth_analysis c1Logs 12).height_percentile ≠
      some (calculate_percentile 75 .height 12) := by
  refine ⟨by decide, by decide, ?_, by decide, ?_⟩
  · intro hcontra
    have h1 : (get_growth_analysis c1Logs 12).latest_height_cm = none := by decide
    have h2 : latestNonNull c1Logs (fun l => l.height_cm) = some 75 := by decide
    rw [h1, h2] at hcontra
    exact Option.noConfusion hcontra
  · intro hcontra
    have h1 : (get_growth_analysis c1Logs 12).height_percentile = none := by decide
    rw [h1] at hcontra
    exact Option.noConfusion hcontra

/-- C1 (amended): for every non-empty log list, each metric's reported
latest value is that metric's field of the last record by date — possibly
null even when earlier records hold non-null values — and the percentile
(computed when age ≤ 36) derives from that last-record field; each metric's
trend derives from only that metric's non-null values in date order; and
the three metrics are computed independently: the outputs for one metric
depend only on that metric's column, so another metric's nulls never affect
them. -/
theorem growth_analysis_latest_contract (logs : List GrowthLog) (age : ℤ) (h : logs ≠ []) :
    (get_growth_analysis logs age).latest_height_cm = (logs.getLast h).height_cm ∧
    (get_growth_analysis logs age).latest_weight_kg = (logs.getLast h).weight_kg ∧
    (get_growth_analysis logs age).latest_head_circumference_cm =
      (logs.getLast h).head_circumference_cm ∧
    (get_growth_analysis logs age).height_percentile =
      percentileIfYoung (logs.getLast h).height_cm .height age ∧
    (get_growth_analysis logs age).weight_percentile =
      percentileIfYoung (logs.getLast h).weight_kg .weight age ∧
    (get_growth_analysis logs age).head_circumference_percentile =
      percentileIfYoung (logs.getLast h).head_circumference_cm .head_circumference age ∧
    (get_growth_analysis logs age).height_trend =
      (if logs.filterMap (fun l => l.height_cm) = [] then "no_data"
        else calculate_trend (logs.filterMap (fun l => l.height_cm))) ∧
    (get_growth_analysis logs age).weight_trend =
      (if logs.filterMap (fun l => l.weight_kg) = [] then "no_data"
        else calculate_trend (logs.filterMap (fun l => l.weight_kg))) ∧
    (get_growth_analysis logs age).head_circumference_trend =
      (if logs.filterMap (fun l => l.head_circumference_cm) = [] then "no_data"
        else calculate_trend (logs.filterMap (fun l => l.head_circumference_cm))) ∧
    (∀ logs' (h' : logs' ≠ []),
      logs'.map (fun l => l.height_cm) = logs.map (fun l => l.height_cm) →
        (get_growth_analysis logs' age).latest_height_cm =
            (get_growth_analysis logs age).latest_height_cm ∧
          (get_growth_analysis logs' age).height_trend =
            (get_growth_analysis logs age).height_trend ∧
          (get_growth_analysis logs' age).height_percentile =
            (get_growth_analysis logs age).height_percentile) ∧
    (∀ logs' (h' : logs' ≠ []),
      logs'.map (fun l => l.weight_kg) = logs.map (fun l => l.weight_kg) →
        (get_growth_analysis logs' age).latest_weight_kg =
            (get_growth_analysis logs age).latest_weight_kg ∧
          (get_growth_analysis logs' age).weight_trend =
            (get_growth_analysis logs age).weight_trend ∧
          (get_growth_analysis logs' age).weight_percentile =
            (get_growth_analysis logs age).weight_percentile) ∧
    (∀ logs' (h' : logs' ≠ []),
      logs'.map (fun l => l.head_circumference_cm) = logs.map (fun l => l.head_circumference_cm) →
        (get_growth_analysis logs' age).latest_head_circumference_cm =
            (get_growth_analysis logs age).latest_head_circumference_cm ∧
          (get_growth_analysis logs' age).head_circumference_trend =
            (get_growth_analysis logs age).head_circumference_trend ∧
          (get_growth_analysis logs' age).head_circumference_percentile =
            (get_growth_analysis logs age).head_circumference_percentile) := by
  rw [get_growth_analysis_eq logs age h]
  refine ⟨rfl, rfl, rfl, rfl, rfl, rfl, rfl, rfl, rfl, ?_, ?_, ?_⟩
  · intro logs' h' hm
    rw [get_growth_analysis_eq logs' age h']
    have hfil := filterMap_eq_of_col_eq hm
    have hlast := getLast_col_eq h h' hm
    exact ⟨hlast, by rw [hfil], by rw [hlast]⟩
  · intro logs' h' hm
    rw [get_growth_analysis_eq logs' age h']
    have hfil := filterMap_eq_of_col_eq hm
    have hlast := getLast_col_eq h h' hm
    exact ⟨hlast, by rw [hfil], by rw [hlast]⟩
  · intro logs' h' hm
    rw [get_growth_analysis_eq logs' age h']
    have hfil := filterMap_eq_of_col_eq hm
    have hlast := getLast_col_eq h h' hm
    exact ⟨hlast, by rw [hfil], by rw [hlast]⟩

theorem growth_analysis_latest_contract_witness :
    c1Logs ≠ [] ∧
      (get_growth_analysis c1Logs 12).latest_height_cm =
        (c1Logs.getLast (List.cons_ne_nil _ _)).height_cm ∧
      (get_growth_analysis c1LogsB 12).height_trend =
        (get_growth_analysis c1Logs 12).height_trend :=
  ⟨List.cons_ne_nil _ _,
    (growth_analysis_latest_contract c1Logs 12 (List.cons_ne_nil _ _)).1,
    ((growth_analysis_latest_contract c1Logs 12 (List.cons_ne_nil _ _)).2.2.2.2.2.2.2.2.2.1
      c1LogsB (List.cons_ne_nil _ _) (by decide)).2.1⟩

/-! ## Claims C4 and C5: calculate_daily_nutrition -/

theorem dateKeys_go (logs : List NutritionLog) (acc : List String) (ha : acc.Nodup) :
    (List.foldl (fun acc l => if l.meal_date ∈ acc then acc else acc ++ [l.meal_date]) acc
      logs).Nodup ∧
    ∀ d,
      d ∈ List.foldl (fun acc l => if l.meal_date ∈ acc then acc else acc ++ [l.meal_date]) acc
          logs ↔
        d ∈ acc ∨ d ∈ logs.map (fun l => l.meal_date) := by
  induction logs generalizing acc with
  | nil =>
    refine ⟨ha, fun d => ?_⟩
    simp
  | cons l ls ih =>
    simp only [List.foldl_cons, List.map_cons, List.mem_cons]
    by_cases hmem : l.meal_date ∈ acc
    · rw [if_pos hmem]
      obtain ⟨n, m⟩ := ih acc ha
      refine ⟨n, fun d => ?_⟩
      rw [m d]
      constructor
      · rintro (hd | hd)
        · exact Or.inl hd
        · exact Or.inr (Or.inr hd)
      · rintro (hd | rfl | hd)
        · exact Or.inl hd
        · exact Or.inl hmem
        · exact Or.inr hd
    · rw [if_neg hmem]
      have ha' : (acc ++ [l.meal_date]).Nodup := by
        refine List.nodup_append.mpr ⟨ha, List.nodup_singleton _, fun a hain hax => ?_⟩
        rw [List.mem_singleton] at hax
        exact hmem (hax ▸ hain)
      obtain ⟨n, m⟩ := ih (acc ++ [l.meal_date]) ha'
      refine ⟨n, fun d => ?_⟩
      rw [m d]
      simp only [List.mem_append, List.mem_singleton]
      tauto

theorem dateKeys_nodup (logs : List NutritionLog) : (dateKeys logs).Nodup :=
  (dateKeys_go logs [] List.nodup_nil).1

theorem mem_dateKeys (logs : List NutritionLog) (d : String) :
    d ∈ dateKeys logs ↔ d ∈ logs.map (fun l => l.meal_date) := by
  have h := (dateKeys_go logs [] List.nodup_nil).2 d
  simpa using h

theorem sortedDates_eq_insertionSort (logs : List NutritionLog) :
    (calculate_daily_nutrition logs).map (fun s => s.date) =
      List.insertionSort (· ≤ ·) (dateKeys logs) := by
  unfold calculate_daily_nutrition
  rw [List.map_map]
  exact List.map_id _

theorem sum_map_filter_eq (p : NutritionLog → Bool) (f : NutritionLog → ℚ)
    (logs : List NutritionLog) :
    ((logs.filter p).map f).sum = (logs.map (fun l => if p l then f l else 0)).sum := by
  induction logs with
  | nil => rfl
  | cons a as ih =>
    by_cases hp : p a
    · simp [List.filter_cons, hp, ih]
    · simp [List.filter_cons, hp, ih]

theorem dailySummaryOn_perm {logs logs' : List NutritionLog} (hp : logs.Perm logs')
    (d : String) : dailySummaryOn logs d = dailySummaryOn logs' d := by
  have hg : (logsOn logs d).Perm (logsOn logs' d) := hp.filter _
  have hsum : ∀ f : NutritionLog → Option ℚ,
      sumBy (logsOn logs d) f = sumBy (logsOn logs' d) f := by
    intro f
    exact (hg.map (fun l => (f l).getD 0)).sum_eq
  have hmult : ((logsOn logs d).map (fun l => l.meal_type) : Multiset String) =
      ((logsOn logs' d).map (fun l => l.meal_type) : Multiset String) :=
    Multiset.coe_eq_coe.mpr (hg.map _)
  simp only [dailySummaryOn, hsum, hmult, hg.length_eq]

/-- C5: `calculate_daily_nutrition` is invariant under permutation of its
input: reordering the logs yields the same summary sequence — same dates in
the same order, same totals, same meal counts, same meal-type counters. -/
theorem daily_nutrition_perm_invariant (logs logs' : List NutritionLog)
    (hp : logs.Perm logs') :
    calculate_daily_nutrition logs = calculate_daily_nutrition logs' := by
  have hperm : (dateKeys logs).Perm (dateKeys logs') := by
    rw [List.perm_ext_iff_of_nodup (dateKeys_nodup _) (dateKeys_nodup _)]
    intro a
    rw [mem_dateKeys, mem_dateKeys]
    exact (hp.map (fun l => l.meal_date)).mem_iff
  have hsorted : List.insertionSort (· ≤ ·) (dateKeys logs) =
      List.insertionSort (· ≤ ·) (dateKeys logs') :=
    List.eq_of_perm_of_sorted
      (((List.perm_insertionSort _ _).trans hperm).trans
        (List.perm_insertionSort _ _).symm)
      (List.sorted_insertionSort _ _) (List.sorted_insertionSort _ _)
  unfold calculate_daily_nutrition
  rw [hsorted]
  exact List.map_congr_left fun d _ => dailySummaryOn_perm hp d

theorem daily_nutrition_perm_invariant_witness :
    ([c5LogA, c5LogB].Perm [c5LogB, c5LogA]) ∧
      calculate_daily_nutrition [c5LogA, c5LogB] = calculate_daily_nutrition [c5LogB, c5LogA] :=
  ⟨List.Perm.swap _ _ _, daily_nutrition_perm_invariant _ _ (List.Perm.swap _ _ _)⟩

/-- C4: `calculate_daily_nutrition` produces one summary per distinct
`YYYY-MM-DD` date of `meal_date`, in ascending date order; each numeric
total is the sum of that field over the logs of that date with null as 0,
rounded to 1 decimal; `meal_count` counts that date's logs; and the
meal-type counter counts that date's logs of each type. -/
theorem daily_nutrition_contract (logs : List NutritionLog) :
    ((calculate_daily_nutrition logs).map (fun s => s.date)).Pairwise (· < ·) ∧
    (∀ d, d ∈ (calculate_daily_nutrition logs).map (fun s => s.date) ↔
      d ∈ logs.map (fun l => l.meal_date)) ∧
    ∀ s ∈ calculate_daily_nutrition logs,
      s.total_calories = round1 ((logs.map (fun l =>
          if l.meal_date = s.date then (l.calories).getD 0 else 0)).sum) ∧
      s.total_protein_g = round1 ((logs.map (fun l =>
          if l.meal_date = s.date then (l.protein_g).getD 0 else 0)).sum) ∧
      s.total_carbs_g = round1 ((logs.map (fun l =>
          if l.meal_date = s.date then (l.carbs_g).getD 0 else 0)).sum) ∧
      s.total_fat_g = round1 ((logs.map (fun l =>
          if l.meal_date = s.date then (l.fat_g).getD 0 else 0)).sum) ∧
      s.total_fiber_g = round1 ((logs.map (fun l =>
          if l.meal_date = s.date then (l.fiber_g).getD 0 else 0)).sum) ∧
      s.total_sodium_mg = round1 ((logs.map (fun l =>
          if l.meal_date = s.date then (l.sodium_mg).getD 0 else 0)).sum) ∧
      s.meal_count = logs.countP (fun l => l.meal_date = s.date) ∧
      ∀ t, s.meals_by_type.count t =
        logs.countP (fun l => l.meal_date = s.date ∧ l.meal_type = t) := by
  have hnodup : (List.insertionSort (· ≤ ·) (dateKeys logs)).Nodup :=
    ((List.perm_insertionSort (· ≤ ·) (dateKeys logs)).nodup_iff).mpr (dateKeys_nodup logs)
  refine ⟨?_, ?_, ?_⟩
  · rw [sortedDates_eq_insertionSort]
    exact (List.sorted_insertionSort (· ≤ ·) (dateKeys logs)).lt_of_le hnodup
  · intro d
    rw [sortedDates_eq_insertionSort, (List.perm_insertionSort _ _).mem_iff, mem_dateKeys]
  · intro s hs
    unfold calculate_daily_nutrition at hs
    rw [List.mem_map] at hs
    obtain ⟨d, _, rfl⟩ := hs
    have hdate : (dailySummaryOn logs d).date = d := rfl
    have hsum : ∀ f : NutritionLog → Option ℚ,
        sumBy (logsOn logs d) f =
          (logs.map (fun l => if l.meal_date = d then (f l).getD 0 else 0)).sum := by
      intro f
      unfold sumBy logsOn
      rw [sum_map_filter_eq]
      congr 1
      refine List.map_congr_left fun a _ => ?_
      by_cases h1 : a.meal_date = d <;> simp [h1]
    refine ⟨?_, ?_, ?_, ?_, ?_, ?_, ?_, ?_⟩ <;>
      simp only [dailySummaryOn, hdate]
    · rw [hsum]
    · rw [hsum]
    · rw [hsum]
    · rw [hsum]
    · rw [hsum]
    · rw [hsum]
    · unfold logsOn
      rw [List.countP_eq_length_filter]
    · intro t
      unfold logsOn
      rw [Multiset.coe_count, List.count_eq_countP, List.countP_map, List.countP_filter]
      refine List.countP_congr fun a _ => ?_
      by_cases h1 : a.meal_date = d <;> by_cases h2 : a.meal_type = t <;>
        simp [Function.comp, h1, h2]

/-! ## Claim C9: get_nutrition_recommendations -/

theorem lowCalMsg_ne_highCalMsg (n : ℕ) : lowCalMsg n ≠ highCalMsg := by
  intro h
  have h2 := congrArg (fun s => s.data.head?) h
  simp [lowCalMsg, highCalMsg, String.data_append] at h2

theorem lowCalMsg_ne_lowProtMsg (n m : ℕ) : lowCalMsg n ≠ lowProtMsg m := by
  intro h
  have h2 := congrArg (fun s => s.data.head?) h
  simp [lowCalMsg, lowProtMsg, String.data_append] at h2

theorem lowCalMsg_ne_fiberMsg (n : ℕ) : lowCalMsg n ≠ fiberMsg := by
  intro h
  have h2 := congrArg (fun s => s.data.head?) h
  simp [lowCalMsg, fiberMsg, String.data_append] at h2

theorem lowCalMsg_ne_sodiumMsg (n : ℕ) : lowCalMsg n ≠ sodiumMsg := by
  intro h
  have h2 := congrArg (fun s => s.data.head?) h
  simp [lowCalMsg, sodiumMsg, String.data_append] at h2

theorem lowCalMsg_ne_balancedMsg (n : ℕ) : lowCalMsg n ≠ balancedMsg := by
  intro h
  have h2 := congrArg (fun s => s.data.head?) h
  simp [lowCalMsg, balancedMsg, String.data_append] at h2

theorem lowProtMsg_ne_highCalMsg (n : ℕ) : lowProtMsg n ≠ highCalMsg := by
  intro h
  have h2 := congrArg (fun s => s.data.head?) h
  simp [lowProtMsg, highCalMsg, String.data_append] at h2

theorem lowProtMsg_ne_fiberMsg (n : ℕ) : lowProtMsg n ≠ fiberMsg := by
  intro h
  have h2 := congrArg (fun s => s.data.take 4) h
  simp [lowProtMsg, fiberMsg, String.data_append] at h2

theorem lowProtMsg_ne_sodiumMsg (n : ℕ) : lowProtMsg n ≠ sodiumMsg := by
  intro h
  have h2 := congrArg (fun s => s.data.head?) h
  simp [lowProtMsg, sodiumMsg, String.data_append] at h2

theorem lowProtMsg_ne_balancedMsg (n : ℕ) : lowProtMsg n ≠ balancedMsg := by
  intro h
  have h2 := congrArg (fun s => s.data.head?) h
  simp [lowProtMsg, balancedMsg, String.data_append] at h2

theorem highCalMsg_ne_fiberMsg : highCalMsg ≠ fiberMsg := by decide

theorem highCalMsg_ne_sodiumMsg : highCalMsg ≠ sodiumMsg := by decide

theorem highCalMsg_ne_balancedMsg : highCalMsg ≠ balancedMsg := by decide

theorem fiberMsg_ne_sodiumMsg : fiberMsg ≠ sodiumMsg := by decide

theorem fiberMsg_ne_balancedMsg : fiberMsg ≠ balancedMsg := by decide

theorem sodiumMsg_ne_balancedMsg : sodiumMsg ≠ balancedMsg := by decide

theorem rules_spec (c1 c2 c3 c4 c5 : Prop) [Decidable c1] [Decidable c2] [Decidable c3]
    [Decidable c4] [Decidable c5] (x1 x2 x3 x4 x5 b : String)
    (hx12 : x1 ≠ x2) (hx13 : x1 ≠ x3) (hx14 : x1 ≠ x4) (hx15 : x1 ≠ x5) (hx1b : x1 ≠ b)
    (hx23 : x2 ≠ x3) (hx24 : x2 ≠ x4) (hx25 : x2 ≠ x5) (hx2b : x2 ≠ b)
    (hx34 : x3 ≠ x4) (hx35 : x3 ≠ x5) (hx3b : x3 ≠ b)
    (hx45 : x4 ≠ x5) (hx4b : x4 ≠ b) (hx5b : x5 ≠ b) (r R : List String)
    (hr : r = (if c1 then [x1] else if c2 then [x2] else []) ++ (if c3 then [x3] else []) ++
      (if c4 then [x4] else []) ++ (if c5 then [x5] else []))
    (hR : R = if r = [] then [b] else r) :
    R ≠ [] ∧ (x1 ∈ R ↔ c1) ∧ (x2 ∈ R ↔ ¬c1 ∧ c2) ∧ (x3 ∈ R ↔ c3) ∧ (x4 ∈ R ↔ c4) ∧
      (x5 ∈ R ↔ c5) ∧ (b ∈ R ↔ R = [b]) ∧
      (R = [b] ↔ ¬c1 ∧ ¬c2 ∧ ¬c3 ∧ ¬c4 ∧ ¬c5) ∧ ∀ m, R.count m ≤ 1 := by
  have m1 : ∀ m, m ∈ (if c1 then [x1] else if c2 then [x2] else []) ↔
      (c1 ∧ m = x1) ∨ (¬c1 ∧ c2 ∧ m = x2) := by
    intro m
    split_ifs <;> simp_all
  have m2 : ∀ m, m ∈ (if c3 then [x3] else []) ↔ (c3 ∧ m = x3) := by
    intro m
    split_ifs <;> simp_all
  have m3 : ∀ m, m ∈ (if c4 then [x4] else []) ↔ (c4 ∧ m = x4) := by
    intro m
    split_ifs <;> simp_all
  have m4 : ∀ m, m ∈ (if c5 then [x5] else []) ↔ (c5 ∧ m = x5) := by
    intro m
    split_ifs <;> simp_all
  have mr : ∀ m, m ∈ r ↔
      ((c1 ∧ m = x1) ∨ (¬c1 ∧ c2 ∧ m = x2)) ∨ (c3 ∧ m = x3) ∨ (c4 ∧ m = x4) ∨
        (c5 ∧ m = x5) := by
    intro m
    rw [hr]
    simp only [List.mem_append, m1, m2, m3, m4, or_assoc]
  have hrempty : r = [] ↔ ¬c1 ∧ ¬c2 ∧ ¬c3 ∧ ¬c4 ∧ ¬c5 := by
    rw [hr]
    simp only [List.append_eq_nil]
    constructor
    · rintro ⟨⟨⟨h1, h3⟩, h4⟩, h5⟩
      split_ifs at h1 with hc1 hc2
      split_ifs at h3 with hc3
      split_ifs at h4 with hc4
      split_ifs at h5 with hc5
      exact ⟨hc1, hc2, hc3, hc4, hc5⟩
    · rintro ⟨h1, h2, h3, h4, h5⟩
      rw [if_neg h1, if_neg h2, if_neg h3, if_neg h4, if_neg h5]
      simp
  have hnodupr : r.Nodup := by
    rw [hr]
    split_ifs <;>
      simp [hx12, hx13, hx14, hx15, hx23, hx24, hx25, hx34, hx35, hx45]
  by_cases hre : r = []
  · have hcond := hrempty.mp hre
    have hRb : R = [b] := by rw [hR, if_pos hre]
    obtain ⟨h1, h2, h3, h4, h5⟩ := hcond
    refine ⟨by simp [hRb], ?_, ?_, ?_, ?_, ?_, ?_, ?_, ?_⟩
    · simp [hRb, hx1b, h1]
    · simp [hRb, hx2b, h2]
    · simp [hRb, hx3b, h3]
    · simp [hRb, hx4b, h4]
    · simp [hRb, hx5b, h5]
    · simp [hRb]
    · simp [hRb, h1, h2, h3, h4, h5]
    · intro m
      simp only [hRb, List.count_singleton]
      split <;> norm_num
  · have hRr : R = r := by rw [hR, if_neg hre]
    have hbne : b ∉ R := by
      rw [hRr]
      intro hmem
      rcases (mr b).mp hmem with (⟨_, hb⟩ | ⟨_, _, hb⟩) | ⟨_, hb⟩ | ⟨_, hb⟩ | ⟨_, hb⟩
      · exact hx1b hb.symm
      · exact hx2b hb.symm
      · exact hx3b hb.symm
      · exact hx4b hb.symm
      · exact hx5b hb.symm
    have hRnotb : R ≠ [b] := by
      intro hcontra
      exact hbne (hcontra ▸ List.mem_singleton_self b)
    have hcondne : ¬(¬c1 ∧ ¬c2 ∧ ¬c3 ∧ ¬c4 ∧ ¬c5) := fun hc => hre (hrempty.mpr hc)
    refine ⟨by rw [hRr]; exact hre, ?_, ?_, ?_, ?_, ?_, ?_, ?_, ?_⟩
    · rw [hRr, mr x1]
      simp [hx12, hx13, hx14, hx15]
    · rw [hRr, mr x2]
      constructor
      · rintro ((⟨_, hc⟩ | ⟨hn, hc, _⟩) | ⟨_, hc⟩ | ⟨_, hc⟩ | ⟨_, hc⟩)
        · exact absurd hc (hx12.symm)
        · exact ⟨hn, hc⟩
        · exact absurd hc hx23
        · exact absurd hc hx24
        · exact absurd hc hx25
      · rintro ⟨hn, hc⟩
        exact Or.inl (Or.inr ⟨hn, hc, rfl⟩)
    · rw [hRr, mr x3]
      constructor
      · rintro ((⟨_, hc⟩ | ⟨_, _, hc⟩) | ⟨hc3, _⟩ | ⟨_, hc⟩ | ⟨_, hc⟩)
        · exact absurd hc (hx13.symm)
        · exact absurd hc (hx23.symm)
        · exact hc3
        · exact absurd hc hx34
        · exact absurd hc hx35
      · intro hc3
        exact Or.inr (Or.inl ⟨hc3, rfl⟩)
    · rw [hRr, mr x4]
      constructor
      · rintro ((⟨_, hc⟩ | ⟨_, _, hc⟩) | ⟨_, hc⟩ | ⟨hc4, _⟩ | ⟨_, hc⟩)
        · exact absurd hc (hx14.symm)
        · exact absurd hc (hx24.symm)
        · exact absurd hc (hx34.symm)
        · exact hc4
        · exact absurd hc hx45
      · intro hc4
        exact Or.inr (Or.inr (Or.inl ⟨hc4, rfl⟩))
    · rw [hRr, mr x5]
      constructor
      · rintro ((⟨_, hc⟩ | ⟨_, _, hc⟩) | ⟨_, hc⟩ | ⟨_, hc⟩ | ⟨hc5, _⟩)
        · exact absurd hc (hx15.symm)
        · exact absurd hc (hx25.symm)
        · exact absurd hc (hx35.symm)
        · exact absurd hc (hx45.symm)
        · exact hc5
      · intro hc5
        exact Or.inr (Or.inr (Or.inr ⟨hc5, rfl⟩))
    · simp [hbne, hRnotb]
    · simp [hRnotb, hcondne]
    · intro m
      refine List.nodup_iff_count_le_one.mp ?_ m
      rw [hRr]
      exact hnodupr

/-- C9: the recommendation rules evaluate in fixed order with the
age-banded targets (≤ 12 months: 800 kcal / 15 g protein, ≤ 24: 1000 / 20,
else 1200 / 25); the low-calorie (< 80% of target) and high-calorie (>
120%) rules are mutually exclusive so at most one fires; each rule appends
at most one message; and the well-balanced message is returned exactly when
no rule fired, so the result is never empty. -/
theorem recommendations_contract (avg : DailyAverages) (age : ℤ) :
    get_nutrition_recommendations avg age ≠ [] ∧
    ¬(avg.calories < (calorieTarget age : ℚ) * (8/10) ∧
        avg.calories > (calorieTarget age : ℚ) * (12/10)) ∧
    ¬(lowCalMsg (calorieTarget age) ∈ get_nutrition_recommendations avg age ∧
        highCalMsg ∈ get_nutrition_recommendations avg age) ∧
    (lowCalMsg (calorieTarget age) ∈ get_nutrition_recommendations avg age ↔
      avg.calories < (calorieTarget age : ℚ) * (8/10)) ∧
    (highCalMsg ∈ get_nutrition_recommendations avg age ↔
      ¬avg.calories < (calorieTarget age : ℚ) * (8/10) ∧
        avg.calories > (calorieTarget age : ℚ) * (12/10)) ∧
    (lowProtMsg (proteinTarget age) ∈ get_nutrition_recommendations avg age ↔
      avg.protein_g < (proteinTarget age : ℚ) * (8/10)) ∧
    (fiberMsg ∈ get_nutrition_recommendations avg age ↔ avg.fiber_g < 10) ∧
    (sodiumMsg ∈ get_nutrition_recommendations avg age ↔ avg.sodium_mg > 1500) ∧
    (balancedMsg ∈ get_nutrition_recommendations avg age ↔
      get_nutrition_recommendations avg age = [balancedMsg]) ∧
    (get_nutrition_recommendations avg age = [balancedMsg] ↔
      ¬avg.calories < (calorieTarget age : ℚ) * (8/10) ∧
        ¬avg.calories > (calorieTarget age : ℚ) * (12/10) ∧
        ¬avg.protein_g < (proteinTarget age : ℚ) * (8/10) ∧
        ¬avg.fiber_g < 10 ∧ ¬avg.sodium_mg > 1500) ∧
    ∀ m, (get_nutrition_recommendations avg age).count m ≤ 1 := by
  have hT : (if age ≤ 12 then ((800 : ℕ), (15 : ℕ))
      else if age ≤ 24 then ((1000 : ℕ), (20 : ℕ)) else ((1200 : ℕ), (25 : ℕ))) =
      (calorieTarget age, proteinTarget age) := by
    unfold calorieTarget proteinTarget
    split_ifs <;> rfl
  have hcast : (0 : ℚ) ≤ (calorieTarget age : ℚ) := Nat.cast_nonneg _
  have hR : get_nutrition_recommendations avg age =
      if ((if avg.calories < (calorieTarget age : ℚ) * (8/10) then [lowCalMsg (calorieTarget age)]
          else if avg.calories > (calorieTarget age : ℚ) * (12/10) then [highCalMsg] else []) ++
          (if avg.protein_g < (proteinTarget age : ℚ) * (8/10) then
            [lowProtMsg (proteinTarget age)] else []) ++
          (if avg.fiber_g < 10 then [fiberMsg] else []) ++
          (if avg.sodium_mg > 1500 then [sodiumMsg] else [])) = [] then [balancedMsg]
        else ((if avg.calories < (calorieTarget age : ℚ) * (8/10) then
            [lowCalMsg (calorieTarget age)]
          else if avg.calories > (calorieTarget age : ℚ) * (12/10) then [highCalMsg] else []) ++
          (if avg.protein_g < (proteinTarget age : ℚ) * (8/10) then
            [lowProtMsg (proteinTarget age)] else []) ++
          (if avg.fiber_g < 10 then [fiberMsg] else []) ++
          (if avg.sodium_mg > 1500 then [sodiumMsg] else [])) := by
    simp only [get_nutrition_recommendations, hT]
  obtain ⟨hne, hm1, hm2, hm3, hm4, hm5, hmb, hbal, hcnt⟩ :=
    rules_spec (avg.calories < (calorieTarget age : ℚ) * (8/10))
      (avg.calories > (calorieTarget age : ℚ) * (12/10))
      (avg.protein_g < (proteinTarget age : ℚ) * (8/10))
      (avg.fiber_g < 10) (avg.sodium_mg > 1500)
      (lowCalMsg (calorieTarget age)) highCalMsg (lowProtMsg (proteinTarget age))
      fiberMsg sodiumMsg balancedMsg
      (lowCalMsg_ne_highCalMsg _) (lowCalMsg_ne_lowProtMsg _ _) (lowCalMsg_ne_fiberMsg _)
      (lowCalMsg_ne_sodiumMsg _) (lowCalMsg_ne_balancedMsg _)
      (lowProtMsg_ne_highCalMsg _).symm highCalMsg_ne_fiberMsg highCalMsg_ne_sodiumMsg
      highCalMsg_ne_balancedMsg (lowProtMsg_ne_fiberMsg _) (lowProtMsg_ne_sodiumMsg _)
      (lowProtMsg_ne_balancedMsg _) fiberMsg_ne_sodiumMsg fiberMsg_ne_balancedMsg
      sodiumMsg_ne_balancedMsg _ (get_nutrition_recommendations avg age) rfl hR
  refine ⟨hne, ?_, ?_, hm1, hm2, hm3, hm4, hm5, hmb, hbal, hcnt⟩
  · rintro ⟨ha, hb⟩
    have : (calorieTarget age : ℚ) * (12/10) < (calorieTarget age : ℚ) * (8/10) := lt_trans hb ha
    nlinarith
  · rintro ⟨ha, hb⟩
    have hc1 := hm1.mp ha
    have hc2 := hm2.mp hb
    exact hc2.1 hc1

theorem recommendations_contract_witness :
    get_nutrition_recommendations c9Avg 10 ≠ [] ∧
      (get_nutrition_recommendations c9Avg 10).count balancedMsg ≤ 1 :=
  ⟨(recommendations_contract c9Avg 10).1,
    (recommendations_contract c9Avg 10).2.2.2.2.2.2.2.2.2.2 balancedMsg⟩

/-! ## Claims C6 and C7: get_nutrition_summary -/

/-- C6: on an empty in-range log list the summary raises no error and
returns `total_logs = 0`, an empty averages dict, no daily summaries, no
foods, an empty goals dict, and exactly one recommendation prompting the
user to start logging. -/
theorem nutrition_summary_empty (days : ℕ) (age : ℤ) :
    get_nutrition_summary [] days age =
      { total_logs := 0
        date_range := "Last " ++ toString days ++ " days"
        daily_averages := none
        recent_daily_summaries := []
        most_common_foods := []
        nutrition_goals_status := none
        recommendations := ["No nutrition data available. Start logging meals!"] } ∧
    (get_nutrition_summary [] days age).recommendations.length = 1 :=
  ⟨rfl, rfl⟩

theorem dateKeys_length_eq (logs : List NutritionLog) :
    (dateKeys logs).length = distinctDateCount logs := by
  have h1 : (dateKeys logs).Perm ((logs.map (fun l => l.meal_date)).dedup) := by
    rw [List.perm_ext_iff_of_nodup (dateKeys_nodup _) (List.nodup_dedup _)]
    intro a
    rw [mem_dateKeys, List.mem_dedup]
  exact h1.length_eq

theorem daily_length_eq (logs : List NutritionLog) :
    (calculate_daily_nutrition logs).length = distinctDateCount logs := by
  unfold calculate_daily_nutrition
  rw [List.length_map, (List.perm_insertionSort _ _).length_eq, dateKeys_length_eq]

theorem distinctDateCount_pos (logs : List NutritionLog) (h : logs ≠ []) :
    0 < distinctDateCount logs := by
  obtain ⟨l, ls, rfl⟩ := List.exists_cons_of_ne_nil h
  have hmem : l.meal_date ∈ ((l :: ls).map (fun x => x.meal_date)).dedup := by
    rw [List.mem_dedup]
    exact List.mem_map_of_mem _ (List.mem_cons_self _ _)
  exact List.length_pos.mpr (List.ne_nil_of_mem hmem)

theorem round1_mul_reconstruct (T : ℚ) (D : ℕ) (hD : 0 < D) :
    |round1 (T / (D : ℚ)) * (D : ℚ) - T| ≤ (D : ℚ) * (1/10) := by
  have hd0 : (0 : ℚ) < (D : ℚ) := by exact_mod_cast hD
  have h1 : |round1 (T / (D : ℚ)) - T / (D : ℚ)| ≤ 1/20 := abs_round1_sub_le _
  have h2 : round1 (T / (D : ℚ)) * (D : ℚ) - T =
      (round1 (T / (D : ℚ)) - T / (D : ℚ)) * (D : ℚ) := by
    field_simp
  rw [h2, abs_mul, abs_of_pos hd0]
  have h3 : |round1 (T / (D : ℚ)) - T / (D : ℚ)| * (D : ℚ) ≤ (1/20) * (D : ℚ) :=
    mul_le_mul_of_nonneg_right h1 hd0.le
  linarith

/-- C7: for a non-empty in-range log list, the number of days used as
divisor equals the number of distinct dates among the logs and is never 0;
each daily average is the per-macro sum over all logs (null as 0) divided
by that count, rounded to 1 decimal; and each daily average times the day
count reconstructs the per-macro total within 0.1 per day. -/
theorem nutrition_summary_averages (logs : List NutritionLog) (days : ℕ) (age : ℤ)
    (h : logs ≠ []) :
    0 < distinctDateCount logs ∧
    (get_nutrition_summary logs days age).daily_averages = some
      { calories := round1 (sumBy logs (fun l => l.calories) / (distinctDateCount logs : ℚ))
        protein_g := round1 (sumBy logs (fun l => l.protein_g) / (distinctDateCount logs : ℚ))
        carbs_g := round1 (sumBy logs (fun l => l.carbs_g) / (distinctDateCount logs : ℚ))
        fat_g := round1 (sumBy logs (fun l => l.fat_g) / (distinctDateCount logs : ℚ))
        fiber_g := round1 (sumBy logs (fun l => l.fiber_g) / (distinctDateCount logs : ℚ))
        sodium_mg :=
          round1 (sumBy logs (fun l => l.sodium_mg) / (distinctDateCount logs : ℚ)) } ∧
    ∀ f : NutritionLog → Option ℚ,
      |round1 (sumBy logs f / (distinctDateCount logs : ℚ)) * (distinctDateCount logs : ℚ) -
          sumBy logs f| ≤ (distinctDateCount logs : ℚ) * (1/10) := by
  have hpos := distinctDateCount_pos logs h
  have hlen : ¬logs.length = 0 := by
    simpa [List.length_eq_zero] using h
  have htd : (if (calculate_daily_nutrition logs).length ≠ 0 then
      (calculate_daily_nutrition logs).length else 1) = distinctDateCount logs := by
    rw [daily_length_eq]
    rw [if_pos (by omega)]
  refine ⟨hpos, ?_, ?_⟩
  · simp only [get_nutrition_summary, if_neg hlen, htd]
  · intro f
    exact round1_mul_reconstruct (sumBy logs f) (distinctDateCount logs) hpos

theorem nutrition_summary_averages_witness :
    ([c5LogA] : List NutritionLog) ≠ [] ∧ 0 < distinctDateCount [c5LogA] ∧
      |round1 (sumBy [c5LogA] (fun l => l.calories) / (distinctDateCount [c5LogA] : ℚ)) *
            (distinctDateCount [c5LogA] : ℚ) -
          sumBy [c5LogA] (fun l => l.calories)| ≤
        (distinctDateCount [c5LogA] : ℚ) * (1/10) :=
  ⟨List.cons_ne_nil _ _, (nutrition_summary_averages [c5LogA] 7 12 (List.cons_ne_nil _ _)).1,
    (nutrition_summary_averages [c5LogA] 7 12 (List.cons_ne_nil _ _)).2.2
      (fun l => l.calories)⟩

theorem daily_nutrition_contract_witness :
    dailySummaryOn [c5LogA, c5LogB] "2024-01-01" ∈ calculate_daily_nutrition [c5LogA, c5LogB] ∧
      (dailySummaryOn [c5LogA, c5LogB] "2024-01-01").meal_count =
        [c5LogA, c5LogB].countP
          (fun l => l.meal_date = (dailySummaryOn [c5LogA, c5LogB] "2024-01-01").date) := by
  have hk : dateKeys [c5LogA, c5LogB] = ["2024-01-01"] := by decide
  have hmem : dailySummaryOn [c5LogA, c5LogB] "2024-01-01" ∈
      calculate_daily_nutrition [c5LogA, c5LogB] := by
    unfold calculate_daily_nutrition
    rw [hk]
    exact List.mem_singleton.mpr rfl
  exact ⟨hmem,
    ((daily_nutrition_contract [c5LogA, c5LogB]).2.2 _ hmem).2.2.2.2.2.2.1⟩

/-! ## Claim C8: mostCommonFoods -/

theorem firstDedup_go (l : List String) (acc : List String) (ha : acc.Nodup) :
    (List.foldl (fun acc x => if x ∈ acc then acc else acc ++ [x]) acc l).Nodup ∧
    ∀ d, d ∈ List.foldl (fun acc x => if x ∈ acc then acc else acc ++ [x]) acc l ↔
      d ∈ acc ∨ d ∈ l := by
  induction l generalizing acc with
  | nil =>
    refine ⟨ha, fun d => ?_⟩
    simp
  | cons x xs ih =>
    simp only [List.foldl_cons, List.mem_cons]
    by_cases hmem : x ∈ acc
    · rw [if_pos hmem]
      obtain ⟨n, m⟩ := ih acc ha
      refine ⟨n, fun d => ?_⟩
      rw [m d]
      constructor
      · rintro (hd | hd)
        · exact Or.inl hd
        · exact Or.inr (Or.inr hd)
      · rintro (hd | rfl | hd)
        · exact Or.inl hd
        · exact Or.inl hmem
        · exact Or.inr hd
    · rw [if_neg hmem]
      have ha' : (acc ++ [x]).Nodup := by
        refine List.nodup_append.mpr ⟨ha, List.nodup_singleton _, fun a hain hax => ?_⟩
        rw [List.mem_singleton] at hax
        exact hmem (hax ▸ hain)
      obtain ⟨n, m⟩ := ih (acc ++ [x]) ha'
      refine ⟨n, fun d => ?_⟩
      rw [m d]
      simp only [List.mem_append, List.mem_singleton]
      tauto

theorem firstDedup_nodup (l : List String) : (firstDedup l).Nodup :=
  (firstDedup_go l [] List.nodup_nil).1

theorem mem_firstDedup (l : List String) (d : String) : d ∈ firstDedup l ↔ d ∈ l := by
  have h := (firstDedup_go l [] List.nodup_nil).2 d
  simpa using h

theorem insertDesc_mem (x y : String × ℕ) (l : List (String × ℕ)) :
    y ∈ insertDesc x l ↔ y = x ∨ y ∈ l := by
  induction l with
  | nil => simp [insertDesc]
  | cons a as ih =>
    unfold insertDesc
    split_ifs with h
    · exact List.mem_cons
    · simp only [List.mem_cons, ih]
      tauto

theorem insertDesc_perm (x : String × ℕ) (l : List (String × ℕ)) :
    (insertDesc x l).Perm (x :: l) := by
  induction l with
  | nil => simp [insertDesc]
  | cons a as ih =>
    unfold insertDesc
    split_ifs with h
    · exact List.Perm.refl _
    · exact (ih.cons a).trans (List.Perm.swap x a as)

theorem foldl_insertDesc_perm (items : List (String × ℕ)) :
    ∀ acc : List (String × ℕ),
      (items.foldl (fun acc x => insertDesc x acc) acc).Perm (acc ++ items) := by
  induction items with
  | nil => intro acc; simp
  | cons x xs ih =>
    intro acc
    have h1 := ih (insertDesc x acc)
    have h2 : (insertDesc x acc ++ xs).Perm (acc ++ x :: xs) := by
      have h3 : (insertDesc x acc).Perm (x :: acc) := insertDesc_perm x acc
      exact (h3.append_right xs).trans List.perm_middle.symm
    exact h1.trans h2

theorem insertDesc_pairwise (S : String × ℕ → String × ℕ → Prop)
    (hS1 : ∀ p q, q.2 < p.2 → S p q) (hS2 : ∀ p q, S p q → q.2 ≤ p.2) (x : String × ℕ) :
    ∀ acc : List (String × ℕ), acc.Pairwise S → (∀ p ∈ acc, x.2 ≤ p.2 → S p x) →
      (insertDesc x acc).Pairwise S := by
  intro acc
  induction acc with
  | nil =>
    intro _ _
    simp [insertDesc]
  | cons y ys ih =>
    intro hacc htie
    rw [List.pairwise_cons] at hacc
    unfold insertDesc
    split_ifs with h
    · rw [List.pairwise_cons]
      refine ⟨?_, List.pairwise_cons.mpr hacc⟩
      intro z hz
      rcases List.mem_cons.mp hz with rfl | hz'
      · exact hS1 x z h
      · have hyz := hacc.1 z hz'
        exact hS1 x z (lt_of_le_of_lt (hS2 y z hyz) h)
    · rw [List.pairwise_cons]
      constructor
      · intro z hz
        rcases (insertDesc_mem x z ys).mp hz with rfl | hz'
        · exact htie y (List.mem_cons_self y ys) (le_of_not_lt h)
        · exact hacc.1 z hz'
      · exact ih hacc.2 (fun p hp hle => htie p (List.mem_cons_of_mem y hp) hle)

theorem foldl_insertDesc_pairwise (S : String × ℕ → String × ℕ → Prop)
    (hS1 : ∀ p q, q.2 < p.2 → S p q) (hS2 : ∀ p q, S p q → q.2 ≤ p.2) :
    ∀ (items acc : List (String × ℕ)), acc.Pairwise S →
      (∀ p ∈ acc, ∀ q ∈ items, q.2 ≤ p.2 → S p q) →
      items.Pairwise (fun a b => b.2 ≤ a.2 → S a b) →
      (items.foldl (fun acc x => insertDesc x acc) acc).Pairwise S := by
  intro items
  induction items with
  | nil =>
    intro acc hacc _ _
    exact hacc
  | cons x xs ih =>
    intro acc hacc hinv hpw
    rw [List.pairwise_cons] at hpw
    simp only [List.foldl_cons]
    refine ih (insertDesc x acc) ?_ ?_ hpw.2
    · exact insertDesc_pairwise S hS1 hS2 x acc hacc
        (fun p hp hle => hinv p hp x (List.mem_cons_self x xs) hle)
    · intro p hp q hq hle
      rcases (insertDesc_mem x p acc).mp hp with rfl | hp'
      · exact hpw.1 q hq hle
      · exact hinv p hp' q (List.mem_cons_of_mem x hq) hle

theorem nodup_pairwise_indexOf (l : List String) (h : l.Nodup) :
    l.Pairwise (fun a b => l.indexOf a < l.indexOf b) := by
  induction l with
  | nil => exact List.Pairwise.nil
  | cons a as ih =>
    rw [List.nodup_cons] at h
    rw [List.pairwise_cons]
    constructor
    · intro b hb
      have hba : b ≠ a := fun hcontra => h.1 (hcontra ▸ hb)
      rw [List.indexOf_cons_self, List.indexOf_cons_ne _ hba.symm]
      exact Nat.succ_pos _
    · refine (ih h.2).imp_of_mem ?_
      intro b c hb hc hbc
      have hba : b ≠ a := fun hcontra => h.1 (hcontra ▸ hb)
      have hca : c ≠ a := fun hcontra => h.1 (hcontra ▸ hc)
      rw [List.indexOf_cons_ne _ hba.symm, List.indexOf_cons_ne _ hca.symm]
      omega

/-- C8 counterexample: a log whose food payload parses to
`[{"name": "apple"}, {"quantity": "1"}]` is malformed (its second item has
no name), yet it contributes the name parsed before the failure: the loop
appends `"apple"` to `all_foods` before `item['name']` raises on the second
item, so the log is not skipped with no names contributed. -/
theorem most_common_foods_counterexample :
    c8BadLog.food_items = some [some "apple", none] ∧
    foodNames c8BadLog.food_items = ["apple"] ∧
    mostCommonFoods [c8BadLog] = ["apple"] := by
  refine ⟨rfl, rfl, ?_⟩
  decide

/-- C8 (amended): `most_common_foods` has length at most 5, lists names in
descending occurrence order with ties broken by first-encountered order,
never includes a name whose count is lower than that of any occurring
excluded name, and a log whose payload is unparseable (`json.loads` raises)
contributes no names and is silently skipped; a payload that parses but has
a malformed item contributes exactly the names parsed before that item. -/
theorem most_common_foods_contract (logs : List NutritionLog) :
    (mostCommonFoods logs).length ≤ 5 ∧
    (mostCommonFoods logs).Pairwise (fun a b =>
      (allFoods logs).count b < (allFoods logs).count a ∨
        ((allFoods logs).count b = (allFoods logs).count a ∧
          (firstDedup (allFoods logs)).indexOf a < (firstDedup (allFoods logs)).indexOf b)) ∧
    (∀ a ∈ mostCommonFoods logs, a ∈ allFoods logs) ∧
    (∀ a ∈ mostCommonFoods logs, ∀ b ∈ allFoods logs, b ∉ mostCommonFoods logs →
      (allFoods logs).count b ≤ (allFoods logs).count a) ∧
    (∀ (pre post : List NutritionLog) (d t : String) (c p cb f fb s : Option ℚ),
      mostCommonFoods (pre ++
          { meal_date := d, meal_type := t, food_items := none, calories := c, protein_g := p,
            carbs_g := cb, fat_g := f, fiber_g := fb, sodium_mg := s } :: post) =
        mostCommonFoods (pre ++ post)) := by
  set fd := firstDedup (allFoods logs) with hfd
  set S : String × ℕ → String × ℕ → Prop := fun p q =>
    q.2 < p.2 ∨ (q.2 = p.2 ∧ fd.indexOf p.1 < fd.indexOf q.1) with hS
  have hS1 : ∀ p q, q.2 < p.2 → S p q := fun p q h => Or.inl h
  have hS2 : ∀ p q, S p q → q.2 ≤ p.2 := by
    rintro p q (h | ⟨h, _⟩)
    · exact le_of_lt h
    · exact le_of_eq h
  have hitems_pw : (counterItems logs).Pairwise (fun a b => b.2 ≤ a.2 → S a b) := by
    rw [counterItems, List.pairwise_map]
    refine (nodup_pairwise_indexOf fd (firstDedup_nodup _)).imp ?_
    intro a b hidx hle
    rcases lt_or_eq_of_le hle with hlt | heq
    · exact Or.inl hlt
    · exact Or.inr ⟨heq, hidx⟩
  have hsorted_pw : (sortByCountDesc (counterItems logs)).Pairwise S := by
    rw [sortByCountDesc]
    exact foldl_insertDesc_pairwise S hS1 hS2 (counterItems logs) [] List.Pairwise.nil
      (fun p hp => absurd hp (List.not_mem_nil p)) hitems_pw
  have hsorted_perm : (sortByCountDesc (counterItems logs)).Perm (counterItems logs) := by
    rw [sortByCountDesc]
    simpa using foldl_insertDesc_perm (counterItems logs) []
  have hmem_items : ∀ p ∈ counterItems logs,
      p.2 = (allFoods logs).count p.1 ∧ p.1 ∈ fd := by
    intro p hp
    rw [counterItems] at hp
    obtain ⟨n, hn, rfl⟩ := List.mem_map.mp hp
    exact ⟨rfl, hn⟩
  have hmem_sorted : ∀ p ∈ sortByCountDesc (counterItems logs),
      p.2 = (allFoods logs).count p.1 ∧ p.1 ∈ fd :=
    fun p hp => hmem_items p (hsorted_perm.mem_iff.mp hp)
  refine ⟨?_, ?_, ?_, ?_, ?_⟩
  · rw [mostCommonFoods, List.length_map]
    exact List.length_take_le _ _
  · rw [mostCommonFoods, List.pairwise_map]
    have htake_pw : ((sortByCountDesc (counterItems logs)).take 5).Pairwise S :=
      List.Pairwise.sublist (List.take_sublist _ _) hsorted_pw
    refine htake_pw.imp_of_mem ?_
    intro p q hp hq hpq
    have hp' := hmem_sorted p (List.take_subset _ _ hp)
    have hq' := hmem_sorted q (List.take_subset _ _ hq)
    rcases hpq with h | ⟨h, hidx⟩
    · exact Or.inl (hq'.1 ▸ hp'.1 ▸ h)
    · exact Or.inr ⟨hq'.1 ▸ hp'.1 ▸ h, hidx⟩
  · intro a ha
    rw [mostCommonFoods] at ha
    obtain ⟨p, hp, rfl⟩ := List.mem_map.mp ha
    have hp' := hmem_sorted p (List.take_subset _ _ hp)
    exact (mem_firstDedup _ _).mp hp'.2
  · intro a ha b hb hbnot
    rw [mostCommonFoods] at ha
    obtain ⟨p, hp, rfl⟩ := List.mem_map.mp ha
    have hp' := hmem_sorted p (List.take_subset _ _ hp)
    have hbfd : b ∈ fd := (mem_firstDedup _ _).mpr hb
    have hbitems : (b, (allFoods logs).count b) ∈ counterItems logs := by
      rw [counterItems]
      exact List.mem_map_of_mem _ hbfd
    have hbsorted : (b, (allFoods logs).count b) ∈ sortByCountDesc (counterItems logs) :=
      hsorted_perm.mem_iff.mpr hbitems
    rw [← List.take_append_drop 5 (sortByCountDesc (counterItems logs))] at hbsorted
    rcases List.mem_append.mp hbsorted with hbtake | hbdrop
    · exact absurd (by rw [mostCommonFoods]; exact List.mem_map_of_mem _ hbtake) hbnot
    · have hsorted_pw' : ((sortByCountDesc (counterItems logs)).take 5 ++
          (sortByCountDesc (counterItems logs)).drop 5).Pairwise S := by
        rw [List.take_append_drop]
        exact hsorted_pw
      have hsplit := List.pairwise_append.mp hsorted_pw'
      have hSpb := hsplit.2.2 p hp _ hbdrop
      have := hS2 _ _ hSpb
      simpa [hp'.1] using this
  · intro pre post d t c p cb f fb s
    have hAF : allFoods (pre ++
        { meal_date := d, meal_type := t, food_items := none, calories := c, protein_g := p,
          carbs_g := cb, fat_g := f, fiber_g := fb, sodium_mg := s } :: post) =
        allFoods (pre ++ post) := by
      simp [allFoods, foodNames]
    rw [mostCommonFoods, mostCommonFoods, counterItems, counterItems, hAF]

theorem most_common_foods_contract_witness :
    "apple" ∈ mostCommonFoods [c8BadLog, c5LogA] ∧
      (mostCommonFoods [c8BadLog, c5LogA]).length ≤ 5 ∧
      "apple" ∈ allFoods [c8BadLog, c5LogA] :=
  ⟨by decide, (most_common_foods_contract [c8BadLog, c5LogA]).1,
    (most_common_foods_contract [c8BadLog, c5LogA]).2.2.1 "apple" (by decide)⟩
